import Mathlib

/-!
Verification of the conversational turn controller and response interpreter of
the AIPS screener (source: src/llm_screener.py).

The development shallowly embeds the Python code: the JSON decoding performed
by `json.loads` is modelled by an executable recursive-descent decoder over
character lists, the Streamlit session state is an explicit record, and every
UI handler becomes a pure function from the submitted input and the outcome of
the (external) model call to the next session state.  A Boolean `raised` flag
records whether an uncaught Python exception escapes a handler.
-/

/-- Json values as produced by the Python `json` module.  Numbers keep their
raw source token: the controller never inspects numeric values, it only
compares fields against string constants. -/
inductive Json where
  | null : Json
  | bool (b : Bool) : Json
  | num (raw : String) : Json
  | str (s : String) : Json
  | arr (elems : List Json) : Json
  | obj (fields : List (String × Json)) : Json
deriving Repr

/-- Lookup in a decoded JSON object.  Python dict construction keeps the last
binding for a duplicated key, so the lookup prefers later fields. -/
def dictGet (fields : List (String × Json)) (k : String) : Option Json :=
  match fields with
  | [] => none
  | (k2, v) :: rest =>
    match dictGet rest k with
    | some v2 => some v2
    | none => if k2 = k then some v else none

/-- Python `k in d` membership test on a decoded object. -/
def hasKey (fields : List (String × Json)) (k : String) : Bool :=
  (dictGet fields k).isSome

/-- Whitespace skipped by the Python json decoder: space, tab, newline,
carriage return. -/
def skipWs : List Char → List Char
  | [] => []
  | c :: cs => if c = ' ' ∨ c = '\t' ∨ c = '\n' ∨ c = '\r' then skipWs cs else c :: cs

/-- Value of a hexadecimal digit, for string escapes. -/
def hexVal (c : Char) : Option Nat :=
  if '0' ≤ c ∧ c ≤ '9' then some (c.toNat - '0'.toNat)
  else if 'a' ≤ c ∧ c ≤ 'f' then some (c.toNat - 'a'.toNat + 10)
  else if 'A' ≤ c ∧ c ≤ 'F' then some (c.toNat - 'A'.toNat + 10)
  else none

/-- Body of a JSON string after the opening quote: returns the decoded
characters and the remainder after the closing quote.  Unescaped control
characters are rejected, as in the default strict mode of `json.loads`. -/
def parseStringBody : List Char → Option (List Char × List Char)
  | [] => none
  | c :: rest =>
    if c = '"' then some ([], rest)
    else if c = '\\' then
      match rest with
      | [] => none
      | e :: rest1 =>
        if e = '"' then (parseStringBody rest1).map (fun p => ('"' :: p.1, p.2))
        else if e = '\\' then (parseStringBody rest1).map (fun p => ('\\' :: p.1, p.2))
        else if e = '/' then (parseStringBody rest1).map (fun p => ('/' :: p.1, p.2))
        else if e = 'b' then (parseStringBody rest1).map (fun p => (Char.ofNat 8 :: p.1, p.2))
        else if e = 'f' then (parseStringBody rest1).map (fun p => (Char.ofNat 12 :: p.1, p.2))
        else if e = 'n' then (parseStringBody rest1).map (fun p => ('\n' :: p.1, p.2))
        else if e = 'r' then (parseStringBody rest1).map (fun p => ('\r' :: p.1, p.2))
        else if e = 't' then (parseStringBody rest1).map (fun p => ('\t' :: p.1, p.2))
        else if e = 'u' then
          match rest1 with
          | a :: b2 :: c2 :: d :: rest2 =>
            match hexVal a, hexVal b2, hexVal c2, hexVal d with
            | some x, some y, some z, some w =>
              (parseStringBody rest2).map
                (fun p => (Char.ofNat (((x * 16 + y) * 16 + z) * 16 + w) :: p.1, p.2))
            | _, _, _, _ => none
          | _ => none
        else none
    else if c.toNat < 32 then none
    else (parseStringBody rest).map (fun p => (c :: p.1, p.2))

/-- Longest prefix of decimal digits. -/
def takeDigits : List Char → (List Char × List Char)
  | [] => ([], [])
  | c :: cs =>
    if c.isDigit then
      let p := takeDigits cs
      (c :: p.1, p.2)
    else ([], c :: cs)

/-- Number token, following the JSON grammar enforced by `json.loads`:
optional minus, integer part without leading zeros, optional fraction,
optional exponent.  Returns the raw token and the remainder. -/
def parseNumberToken (cs : List Char) : Option (List Char × List Char) :=
  let (neg, cs1) : List Char × List Char :=
    match cs with
    | '-' :: t => (['-'], t)
    | _ => ([], cs)
  match cs1 with
  | [] => none
  | c :: t =>
    if c = '0' ∨ (c.isDigit ∧ c ≠ '0') then
      let (intPart, rest0) : List Char × List Char :=
        if c = '0' then ([c], t)
        else
          let p := takeDigits t
          (c :: p.1, p.2)
      let (fracPart, rest1) : List Char × List Char :=
        match rest0 with
        | '.' :: t2 =>
          let p := takeDigits t2
          if p.1 = [] then ([], rest0) else ('.' :: p.1, p.2)
        | _ => ([], rest0)
      -- a dot not followed by a digit makes the token end before the dot,
      -- which then fails at the top level as extra data, matching Python
      let (expPart, rest2) : List Char × List Char :=
        match rest1 with
        | e :: t3 =>
          if e = 'e' ∨ e = 'E' then
            let (sgn, t4) : List Char × List Char :=
              match t3 with
              | s :: t5 => if s = '+' ∨ s = '-' then ([s], t5) else ([], t3)
              | [] => ([], t3)
            let p := takeDigits t4
            if p.1 = [] then ([], rest1) else (e :: sgn ++ p.1, p.2)
          else ([], rest1)
        | [] => ([], rest1)
      some (neg ++ intPart ++ fracPart ++ expPart, rest2)
    else none

mutual

/-- One JSON value, fuel-bounded recursive descent.  The fuel only serves to
justify termination; `json_loads` supplies enough for any input. -/
def parseValue : Nat → List Char → Option (Json × List Char)
  | 0, _ => none
  | Nat.succ f, cs =>
    match cs with
    | [] => none
    | c :: rest =>
      if c = '\x7b' then
        let cs1 := skipWs rest
        match cs1 with
        | '\x7d' :: r2 => some (Json.obj [], r2)
        | _ => (parseMembers f cs1).map (fun p => (Json.obj p.1, p.2))
      else if c = '[' then
        let cs1 := skipWs rest
        match cs1 with
        | ']' :: r2 => some (Json.arr [], r2)
        | _ => (parseElements f cs1).map (fun p => (Json.arr p.1, p.2))
      else if c = '"' then
        (parseStringBody rest).map (fun p => (Json.str (String.mk p.1), p.2))
      else if c = 't' then
        match rest with
        | 'r' :: 'u' :: 'e' :: r => some (Json.bool true, r)
        | _ => none
      else if c = 'f' then
        match rest with
        | 'a' :: 'l' :: 's' :: 'e' :: r => some (Json.bool false, r)
        | _ => none
      else if c = 'n' then
        match rest with
        | 'u' :: 'l' :: 'l' :: r => some (Json.null, r)
        | _ => none
      else if c = '-' ∨ c.isDigit then
        (parseNumberToken cs).map (fun p => (Json.num (String.mk p.1), p.2))
      else none

/-- Nonempty member list of a JSON object, expecting a key at the head. -/
def parseMembers : Nat → List Char → Option (List (String × Json) × List Char)
  | 0, _ => none
  | Nat.succ f, cs =>
    match cs with
    | '"' :: rest =>
      match parseStringBody rest with
      | none => none
      | some (key, r1) =>
        match skipWs r1 with
        | ':' :: r2 =>
          match parseValue f (skipWs r2) with
          | none => none
          | some (v, r3) =>
            match skipWs r3 with
            | ',' :: r4 =>
              (parseMembers f (skipWs r4)).map
                (fun p => ((String.mk key, v) :: p.1, p.2))
            | '\x7d' :: r4 => some ([(String.mk key, v)], r4)
            | _ => none
        | _ => none
    | _ => none

/-- Nonempty element list of a JSON array. -/
def parseElements : Nat → List Char → Option (List Json × List Char)
  | 0, _ => none
  | Nat.succ f, cs =>
    match parseValue f cs with
    | none => none
    | some (v, r1) =>
      match skipWs r1 with
      | ',' :: r2 => (parseElements f (skipWs r2)).map (fun p => (v :: p.1, p.2))
      | ']' :: r2 => some ([v], r2)
      | _ => none

end

/-- Model of Python `json.loads`: decode one value from the whole string,
allowing surrounding whitespace only; any leftover input is an error
(Python raises "Extra data"), and any failure yields `none` (Python raises
`json.JSONDecodeError`). -/
def json_loads (s : String) : Option Json :=
  match parseValue (2 * s.data.length + 2) (skipWs s.data) with
  | some (v, rest) => if skipWs rest = [] then some v else none
  | none => none

/-- Characters that can begin a JSON value. -/
def isJsonStart (c : Char) : Bool :=
  c = '\x7b' ∨ c = '[' ∨ c = '"' ∨ c = 't' ∨ c = 'f' ∨ c = 'n' ∨ c = '-' ∨ c.isDigit

/-- Message roles used by the controller. -/
inductive Role where
  | system : Role
  | user : Role
  | assistant : Role
deriving DecidableEq, Repr

/-- One transcript entry.  The source stores the raw value of the
question-text field; non-string values are rendered by `pyStr` at the point
they are stored, which is observationally equivalent because stored content is
never mutated and only ever formatted into text downstream. -/
structure Message where
  role : Role
  content : String
deriving DecidableEq, Repr

/-- The Streamlit session state owned by the controller
(src/llm_screener.py lines 158-168). -/
structure ScreenerState where
  messages : List Message
  current_llm_question_data : Option Json
  assessment_phase_complete : Bool
  summary_generated : Bool
  summary_text : String

/-- Session state right after initialization or a full reset. -/
def initialState : ScreenerState :=
  { messages := []
    current_llm_question_data := none
    assessment_phase_complete := false
    summary_generated := false
    summary_text := "" }

mutual

/-- Python `str` conversion of a decoded JSON value: strings convert to
themselves, anything else to its Python repr (approximated; the controller
only ever applies this to the question-text field, which is a string in every
verified scenario). -/
def pyStr : Json → String
  | Json.str s => s
  | j => pyRepr j

/-- Python repr of a decoded JSON value, approximated. -/
def pyRepr : Json → String
  | Json.null => "None"
  | Json.bool true => "True"
  | Json.bool false => "False"
  | Json.num raw => raw
  | Json.str s => "\x27" ++ s ++ "\x27"
  | Json.arr l => "[" ++ String.intercalate ", " (pyReprList l) ++ "]"
  | Json.obj fs => "\x7b" ++ String.intercalate ", " (pyReprFields fs) ++ "\x7d"

/-- Pointwise repr of array elements. -/
def pyReprList : List Json → List String
  | [] => []
  | j :: t => pyRepr j :: pyReprList t

/-- Pointwise repr of object fields. -/
def pyReprFields : List (String × Json) → List String
  | [] => []
  | (k, v) :: t => ("\x27" ++ k ++ "\x27: " ++ pyRepr v) :: pyReprFields t

end

/-- Python equality test of a decoded JSON value against a string literal:
true only for an equal string (a non-string value never equals a string). -/
def pyEqStr : Json → String → Bool
  | Json.str s, t => s = t
  | _, _ => false

/-- Equality test lifted to an optional field value. -/
def optPyEqStr : Option Json → String → Bool
  | some v, t => pyEqStr v t
  | none, _ => false

/-- The free-text fallback question object built by `process_llm_response`
when the reply is not the expected JSON structure. -/
def fallbackQuestion (response_text : String) : Json :=
  Json.obj [("question_text", Json.str response_text), ("input_type", Json.str "text")]

/-- State produced by the two fallback branches of `process_llm_response`
(lines 180-183 plus the shared append at line 185). -/
def processFallback (response_text : String) (s0 : ScreenerState) : ScreenerState × Bool :=
  ({ s0 with
      current_llm_question_data := some (fallbackQuestion response_text)
      messages := s0.messages ++ [⟨Role.assistant, response_text⟩] }, false)

/-- Embedding of `process_llm_response` (lines 172-185).  The Boolean result
is true when an uncaught Python exception escapes the function: the only such
case is the `KeyError` raised at line 185 when the decoded object carries an
input-type field but no question-text field.  State mutations performed before
the exception persist, as Streamlit session state does. -/
def process_llm_response (response_text : String) (s : ScreenerState) : ScreenerState × Bool :=
  let s0 := { s with current_llm_question_data := none }
  match json_loads response_text with
  | some (Json.obj fields) =>
    if hasKey fields "input_type" then
      let s1 := { s0 with current_llm_question_data := some (Json.obj fields) }
      let s2 :=
        if optPyEqStr (dictGet fields "input_type") "text_display_only" then
          { s1 with assessment_phase_complete := true }
        else s1
      match dictGet fields "question_text" with
      | some qt => ({ s2 with messages := s2.messages ++ [⟨Role.assistant, pyStr qt⟩] }, false)
      | none => (s2, true)
    else processFallback response_text s0
  | some _ => processFallback response_text s0
  | none => processFallback response_text s0

/-- Uppercase conversion as used by Python `str.upper` on the transcript text
(ASCII; the end marker itself is pure ASCII). -/
def toUpperStr (s : String) : String := String.mk (s.data.map Char.toUpper)

/-- Lowercase conversion as used by Python `str.lower`. -/
def toLowerStr (s : String) : String := String.mk (s.data.map Char.toLower)

/-- List-of-characters version of Python `startswith`. -/
def startsWithL : List Char → List Char → Bool
  | [], _ => true
  | _ :: _, [] => false
  | a :: as, b :: bs => a = b && startsWithL as bs

/-- List-of-characters substring containment. -/
def containsSub (needle : List Char) : List Char → Bool
  | [] => startsWithL needle []
  | c :: t => startsWithL needle (c :: t) || containsSub needle t

/-- Python `needle in hay` substring test on strings. -/
def strContains (hay needle : String) : Bool := containsSub needle.data hay.data

/-- Prefix of a string before the first occurrence of a separator, i.e.
Python `s.split(sep)[0]` (the whole string when the separator is absent). -/
def takeBeforeSep (sep : List Char) : List Char → List Char
  | [] => []
  | c :: t => if startsWithL sep (c :: t) then [] else c :: takeBeforeSep sep t

/-- String version of `takeBeforeSep`. -/
def splitFirstPart (s sep : String) : String := String.mk (takeBeforeSep sep.data s.data)

/-- The end-marker token recognized by the text input handler (line 275). -/
def END_MARKER : String := "END ASSESSMENT"

/-- Whether a submitted prompt contains the end marker, matched
case-insensitively via `prompt.upper()` as at line 275. -/
def endMarkerIn (prompt : String) : Bool := strContains (toUpperStr prompt) END_MARKER

/-- The fixed closing assistant message appended on a forced end (line 278). -/
def closing_message : String :=
  "Understood. When you\x27re ready, please click the \x27Generate Doctor\x27s Summary\x27 button."

/-- The fixed fallback greeting used when the very first upstream call fails
(lines 197-198). -/
def initial_fallback_text : String :=
  "Hello! I\x27m ready to start. To begin, could you please tell me your current age?"

/-- The system prompt: an opaque external text resource (spec section 6); its
content is never inspected by the controller, only its position in requests
matters, so it is abridged here. -/
def SYSTEM_PROMPT : String :=
  "You are Holistic Health Insight Assistant, an AI designed to help patients gather comprehensive information about their long-term health issues for their doctor. [abridged opaque prompt text]"

/-- The system message placed at the head of every gathering-phase request. -/
def systemMessage : Message := ⟨Role.system, SYSTEM_PROMPT⟩

/-- System message of the summary request (line 305), opaque text. -/
def summarySystemText : String :=
  "You are an AI assistant specialized in summarizing patient conversations into structured medical reports for doctors. Follow the user\x27s instructions precisely."

/-- Summarization template text before the conversation placeholder
(opaque external resource, abridged). -/
def summaryTemplatePre : String :=
  "Based on the following conversation with a patient: --- START OF CONVERSATION ---\n"

/-- Summarization template text after the conversation placeholder
(opaque external resource, abridged). -/
def summaryTemplatePost : String :=
  "\n--- END OF CONVERSATION --- Please generate a structured summary for their doctor. [abridged opaque template text]"

/-- Python `str.capitalize`: first character uppercased, the rest lowercased. -/
def pyCapitalize (s : String) : String :=
  match s.data with
  | [] => ""
  | c :: cs => String.mk (Char.toUpper c :: cs.map Char.toLower)

/-- Role names as stored in the Python message dicts. -/
def roleText : Role → String
  | Role.system => "system"
  | Role.user => "user"
  | Role.assistant => "assistant"

/-- Conversation rendering used by the summary request (lines 298-300):
capitalized role, colon, content, joined by newlines. -/
def conversationForSummary (s : ScreenerState) : String :=
  String.intercalate "\n"
    (s.messages.map (fun m => pyCapitalize (roleText m.role) ++ ": " ++ m.content))

/-- The message list of the summary request (lines 301-307). -/
def summaryRequest (s : ScreenerState) : List Message :=
  [⟨Role.system, summarySystemText⟩,
   ⟨Role.user, summaryTemplatePre ++ conversationForSummary s ++ summaryTemplatePost⟩]

/-- Result of one interaction step: the next session state, whether an
uncaught exception escaped, and the message list sent upstream when a model
call was issued (`none` when no call happened). -/
structure StepResult where
  state : ScreenerState
  raised : Bool
  request : Option (List Message)

/-- Step that leaves the state unchanged and issues no call. -/
def noopResult (s : ScreenerState) : StepResult := ⟨s, false, none⟩

/-- Embedding of the free-text input handler (lines 269-288), parameterized
by the outcome of the upstream call (`none` = the call failed and
`get_llm_response` returned None). -/
def handle_text_input (prompt : String) (llmResult : Option String)
    (s : ScreenerState) : StepResult :=
  let s1 := { s with
      messages := s.messages ++ [⟨Role.user, prompt⟩]
      current_llm_question_data := none }
  if endMarkerIn prompt = true ∧ 3 < s1.messages.length then
    ⟨{ s1 with
        assessment_phase_complete := true
        messages := s1.messages ++ [⟨Role.assistant, closing_message⟩] }, false, none⟩
  else
    let req := systemMessage :: s1.messages
    match llmResult with
    | some t =>
      let p := process_llm_response t s1
      ⟨p.1, p.2, some req⟩
    | none => ⟨s1, false, some req⟩

/-- Accumulation of `user_response_parts` over the selected labels
(lines 243-248): each selection contributes its value text (the label before
the example suffix), and a selected other-option is replaced in place by the
specified free text when that text is nonempty. -/
def response_parts (raw_selections : List String) (other_text : String) : List String :=
  raw_selections.foldl
    (fun acc raw_sel =>
      let original := splitFirstPart raw_sel " (e.g.,"
      let acc2 := acc ++ [original]
      if strContains (toLowerStr original) "other (please specify)" = true ∧ other_text ≠ "" then
        acc2.dropLast ++ ["Other: " ++ other_text]
      else acc2)
    []

/-- The parts list after the only-other-was-typed adjustment of
lines 250-251. -/
def adjusted_parts (raw_selections : List String) (other_text : String) : List String :=
  if response_parts raw_selections other_text = [] ∧ other_text ≠ "" then
    ["Other: " ++ other_text]
  else response_parts raw_selections other_text

/-- Guard of the unspecified-other marker assignment (line 254). -/
def other_unspecified_guard (option_values : List String) (raw_selections : List String)
    (other_text : String) : Bool :=
  let other_option_present :=
    option_values.any (fun v => strContains (toLowerStr v) "other (please specify)")
  decide (adjusted_parts raw_selections other_text = []) && decide (other_text = "") &&
    other_option_present &&
    raw_selections.any (fun sel => strContains (toLowerStr sel) "other")

/-- The unspecified-other marker text of line 255. -/
def other_unspecified_marker : String := "Selected \x27Other\x27 but did not specify."

/-- Reconstruction of a single user message from multi-choice selections
(lines 235-255).  `option_values` are the value fields of the displayed
options, `raw_selections` the selected formatted labels, `other_text` the
content of the free-text side field. -/
def build_user_response (option_values : List String) (raw_selections : List String)
    (other_text : String) : String :=
  let parts := adjusted_parts raw_selections other_text
  let full := if parts ≠ [] then String.intercalate "; " parts else "No specific option selected"
  if other_unspecified_guard option_values raw_selections other_text = true then
    other_unspecified_marker
  else full

/-- Embedding of the options form submit handler (lines 234-267). -/
def handle_options_submit (option_values : List String) (raw_selections : List String)
    (other_text : String) (llmResult : Option String) (s : ScreenerState) : StepResult :=
  let resp := build_user_response option_values raw_selections other_text
  let s1 := { s with
      messages := s.messages ++ [⟨Role.user, resp⟩]
      current_llm_question_data := none }
  let req := systemMessage :: s1.messages
  match llmResult with
  | some t =>
    let p := process_llm_response t s1
    ⟨p.1, p.2, some req⟩
  | none => ⟨s1, false, some req⟩

/-- Embedding of the summary button handler (lines 295-316). -/
def handle_generate_summary (llmResult : Option String) (s : ScreenerState) : StepResult :=
  let req := summaryRequest s
  match llmResult with
  | some t => ⟨{ s with summary_text := t, summary_generated := true }, false, some req⟩
  | none => ⟨s, false, some req⟩

/-- Embedding of the initial greeting block (lines 189-199): one call with
only the system message; on failure a fixed greeting and a free-text pending
question are installed. -/
def handle_initial_greeting (llmResult : Option String) (s : ScreenerState) : StepResult :=
  let req := [systemMessage]
  match llmResult with
  | some t =>
    let p := process_llm_response t s
    ⟨p.1, p.2, some req⟩
  | none =>
    ⟨{ s with
        messages := s.messages ++ [⟨Role.assistant, initial_fallback_text⟩]
        current_llm_question_data := some (fallbackQuestion initial_fallback_text) },
      false, some req⟩

/-- Input-type test on the stored pending question, Python
`llm_q_data["input_type"] == t` (lines 212 and 269); a missing or non-string
field compares unequal, and a crash at the guard leaves the state unchanged,
which the noop branch models. -/
def inputTypeIs (q : Json) (t : String) : Bool :=
  match q with
  | Json.obj fs => optPyEqStr (dictGet fs "input_type") t
  | _ => false

/-- Value fields of the options list of a pending question
(`llm_q_data.get("options", [])`, each entry a dict whose value field must be
a string for the form to render, lines 214-230). -/
def extractValues : List Json → Option (List String)
  | [] => some []
  | Json.obj fs :: t =>
    match dictGet fs "value" with
    | some (Json.str v) => (extractValues t).map (fun l => v :: l)
    | _ => none
  | _ :: _ => none

/-- Option values of a pending question, when the form can render. -/
def extractOptionValues : Json → Option (List String)
  | Json.obj fs =>
    match dictGet fs "options" with
    | none => some []
    | some (Json.arr l) => extractValues l
    | some _ => none
  | _ => none

/-- The user-visible interaction events of one Streamlit rerun. -/
inductive UiEvent where
  | initGreeting (llmResult : Option String) : UiEvent
  | optionsSubmit (rawSelections : List String) (otherText : String)
      (llmResult : Option String) : UiEvent
  | textSubmit (prompt : String) (llmResult : Option String) : UiEvent
  | generateSummary (llmResult : Option String) : UiEvent
  | resetSession : UiEvent
deriving DecidableEq, Repr

/-- One interaction step of the controller: the gating conditions of lines
189, 209-212, 269 and 295 select which handler (if any) runs.  The API key is
modelled as configured; a reset clears the whole session state (lines
154-156 and the reinitialization at 158-168). -/
def step (e : UiEvent) (s : ScreenerState) : StepResult :=
  match e with
  | UiEvent.initGreeting r =>
    if s.messages = [] then handle_initial_greeting r s else noopResult s
  | UiEvent.optionsSubmit sel ot r =>
    if s.assessment_phase_complete = false ∧ s.summary_generated = false then
      match s.current_llm_question_data with
      | some q =>
        if inputTypeIs q "options" = true then
          match extractOptionValues q with
          | some vals => handle_options_submit vals sel ot r s
          | none => noopResult s
        else noopResult s
      | none => noopResult s
    else noopResult s
  | UiEvent.textSubmit p r =>
    if s.assessment_phase_complete = false ∧ s.summary_generated = false then
      match s.current_llm_question_data with
      | some q =>
        if inputTypeIs q "text" = true then handle_text_input p r s else noopResult s
      | none => noopResult s
    else noopResult s
  | UiEvent.generateSummary r =>
    if s.assessment_phase_complete = true ∧ s.summary_generated = false then
      handle_generate_summary r s
    else noopResult s
  | UiEvent.resetSession => ⟨initialState, false, none⟩

/-- Sequence of interaction steps, threading only the state. -/
def run (events : List UiEvent) (s : ScreenerState) : ScreenerState :=
  events.foldl (fun st e => (step e st).state) s

/-- Numeric encoding of the session phase: gathering is 0,
assessment-complete is 1, summary-generated is 2. -/
def phaseRank (s : ScreenerState) : Nat :=
  if s.summary_generated then 2 else if s.assessment_phase_complete then 1 else 0

/-- Question-text field of the stored pending question. -/
def pendingQuestionText (s : ScreenerState) : Option Json :=
  match s.current_llm_question_data with
  | some (Json.obj fs) => dictGet fs "question_text"
  | _ => none

/-- Whether a transcript contains no system-role entry. -/
def noSystemIn (l : List Message) : Bool :=
  l.all (fun m => match m.role with | Role.system => false | _ => true)

/-- Number of system-role entries in a message list. -/
def countSystem (l : List Message) : Nat :=
  (l.filter (fun m => match m.role with | Role.system => true | _ => false)).length

/-- A character that cannot begin a JSON value makes the value parse fail at
once, for any fuel. -/
theorem parseValue_not_start (f : Nat) (c : Char) (rest : List Char)
    (h : isJsonStart c = false) : parseValue f (c :: rest) = none := by
  have h' : ¬(c = '\x7b' ∨ c = '[' ∨ c = '"' ∨ c = 't' ∨ c = 'f' ∨ c = 'n' ∨ c = '-' ∨ c.isDigit) := by
    simpa [isJsonStart] using h
  push_neg at h'
  obtain ⟨h1, h2, h3, h4, h5, h6, h7, h8⟩ := h'
  cases f with
  | zero => rfl
  | succ f => simp [parseValue, h1, h2, h3, h4, h5, h6, h7, h8]

/-- If the first non-whitespace character of the raw reply cannot begin a
JSON value, the whole decode fails, as in `json.loads`. -/
theorem json_loads_prose (s : String) (c : Char) (rest : List Char)
    (h1 : skipWs s.data = c :: rest) (h2 : isJsonStart c = false) :
    json_loads s = none := by
  unfold json_loads
  rw [h1, parseValue_not_start _ _ _ h2]

/-- When the decode fails, `process_llm_response` lands in the free-text
fallback branch. -/
theorem process_of_loads_none (t : String) (s : ScreenerState)
    (h : json_loads t = none) :
    process_llm_response t s
      = processFallback t { s with current_llm_question_data := none } := by
  unfold process_llm_response
  rw [h]

/-- Decode errors themselves never escape `process_llm_response`; the
fallback outcome is produced instead. -/
theorem process_decode_error_caught (t : String) (s : ScreenerState)
    (h : json_loads t = none) : (process_llm_response t s).2 = false := by
  rw [process_of_loads_none t s h]
  rfl

/-- Raw model reply with a well-formed structured question object surrounded
by prose, the shape claim C1 is about. -/
def c1_raw : String :=
  "Sure, here is a question:\n\x7b\"question_text\": \"How old are you?\", \"input_type\": \"text\"\x7d\nLet me know!"

/-- Claim C1 is false on the code: for a well-formed structured question
object embedded in surrounding prose, `process_llm_response` performs no
brace-scanning extraction; `json.loads` fails on the full reply and the
resulting pending question is the free-text fallback whose question text is
the entire raw reply, not the object question text. -/
theorem c1_counterexample :
    pendingQuestionText (process_llm_response c1_raw initialState).1 = some (Json.str c1_raw)
    ∧ (process_llm_response c1_raw initialState).1.messages
        = [⟨Role.assistant, c1_raw⟩]
    ∧ c1_raw ≠ "How old are you?" := by
  refine ⟨rfl, rfl, ?_⟩
  decide

/-- A successful parse yields an object only when the input begins with an
opening brace: every other leading character selects a branch of `parseValue`
that produces a different constructor or fails. -/
theorem parseValue_obj_head (f : Nat) (cs : List Char) (fields : List (String × Json))
    (r : List Char) (h : parseValue f cs = some (Json.obj fields, r)) :
    ∃ rest, cs = '\x7b' :: rest := by
  cases f with
  | zero => cases h
  | succ f =>
    cases cs with
    | nil => cases h
    | cons c rest =>
      by_cases hc : c = '\x7b'
      · exact ⟨rest, by rw [hc]⟩
      · exfalso
        simp only [parseValue, if_neg hc] at h
        split at h
        · split at h
          · simp at h
          · rcases hpe : parseElements f (skipWs rest) with _ | p <;>
              rw [hpe] at h <;> simp [Option.map] at h
        · split at h
          · rcases hps : parseStringBody rest with _ | p <;>
              rw [hps] at h <;> simp [Option.map] at h
          · split at h
            · split at h <;> simp_all
            · split at h
              · split at h <;> simp_all
              · split at h
                · split at h <;> simp_all
                · split at h
                  · rcases hpn : parseNumberToken (c :: rest) with _ | p <;>
                      rw [hpn] at h <;> simp [Option.map] at h
                  · simp at h

/-- The whole-string decode yields an object only when the first
non-whitespace character of the reply is an opening brace, as with
`json.loads`. -/
theorem json_loads_obj_head (raw : String) (fields : List (String × Json))
    (h : json_loads raw = some (Json.obj fields)) :
    ∃ rest, skipWs raw.data = '\x7b' :: rest := by
  unfold json_loads at h
  rcases hp : parseValue (2 * raw.data.length + 2) (skipWs raw.data) with _ | ⟨v, r⟩
  · rw [hp] at h
    cases h
  · rw [hp] at h
    dsimp only at h
    by_cases he : skipWs r = []
    · rw [if_pos he] at h
      have hv : v = Json.obj fields := Option.some.inj h
      rw [hv] at hp
      exact parseValue_obj_head _ _ _ _ hp
    · rw [if_neg he] at h
      cases h

/-- Unless the entire reply decodes to a JSON object, `process_llm_response`
lands in the free-text fallback branch (a successful decode to a non-object
value falls back too). -/
theorem process_of_not_obj (t : String) (s : ScreenerState)
    (h : ∀ fields, json_loads t ≠ some (Json.obj fields)) :
    process_llm_response t s
      = processFallback t { s with current_llm_question_data := none } := by
  unfold process_llm_response
  rcases hj : json_loads t with _ | v
  · rfl
  · cases v with
    | obj fields => exact absurd hj (h fields)
    | null => rfl
    | bool b => rfl
    | num raw => rfl
    | str s2 => rfl
    | arr l => rfl

/-- The installed pending question is either the free-text fallback for the
whole raw reply or the decode of the entire raw reply — never a sub-span. -/
theorem process_question_source (raw : String) (s : ScreenerState) :
    (process_llm_response raw s).1.current_llm_question_data
        = some (fallbackQuestion raw)
    ∨ ∃ fields, json_loads raw = some (Json.obj fields)
        ∧ (process_llm_response raw s).1.current_llm_question_data
            = some (Json.obj fields) := by
  cases hj : json_loads raw with
  | none =>
    left
    rw [process_of_loads_none raw s hj]
    rfl
  | some v =>
    cases v with
    | obj fields =>
      by_cases hk : hasKey fields "input_type" = true
      · right
        refine ⟨fields, rfl, ?_⟩
        by_cases htdo : optPyEqStr (dictGet fields "input_type") "text_display_only" = true
        · cases hq : dictGet fields "question_text" <;>
            simp [process_llm_response, hj, hk, htdo, hq]
        · cases hq : dictGet fields "question_text" <;>
            simp [process_llm_response, hj, hk, htdo, hq]
      · left
        simp [process_llm_response, hj, hk, processFallback]
    | null => left; simp [process_llm_response, hj, processFallback]
    | bool b => left; simp [process_llm_response, hj, processFallback]
    | num raw2 => left; simp [process_llm_response, hj, processFallback]
    | str s2 => left; simp [process_llm_response, hj, processFallback]
    | arr l => left; simp [process_llm_response, hj, processFallback]

/-- Claim C1 (amended): whenever any non-whitespace prose precedes the
embedded object — the first non-whitespace character of the reply is not the
opening brace, covering numbered lists, dashes, quoted lead-ins, words and
every other prefix — the object is never extracted: the interpreter falls
back wholesale to a free-text question whose question text is the entire raw
reply.  Conversely, a structured question is only ever installed as the
decode of the entire raw reply (up to surrounding whitespace), never of a
sub-span. -/
theorem c1_amended_prose_falls_back :
    (∀ (s : ScreenerState) (raw : String) (c : Char) (rest : List Char),
        skipWs raw.data = c :: rest → c ≠ '\x7b' →
        (process_llm_response raw s).1.current_llm_question_data
            = some (fallbackQuestion raw)
        ∧ (process_llm_response raw s).1.messages
            = s.messages ++ [⟨Role.assistant, raw⟩]
        ∧ (process_llm_response raw s).2 = false)
    ∧ (∀ (raw : String) (s : ScreenerState),
        (process_llm_response raw s).1.current_llm_question_data
            = some (fallbackQuestion raw)
        ∨ ∃ fields, json_loads raw = some (Json.obj fields)
            ∧ (process_llm_response raw s).1.current_llm_question_data
                = some (Json.obj fields)) := by
  constructor
  · intro s raw c rest h1 h2
    have hno : ∀ fields, json_loads raw ≠ some (Json.obj fields) := by
      intro fields hc
      obtain ⟨rest2, hr⟩ := json_loads_obj_head raw fields hc
      rw [h1] at hr
      exact h2 (List.head_eq_of_cons_eq hr)
    rw [process_of_not_obj raw s hno]
    exact ⟨rfl, rfl, rfl⟩
  · exact process_question_source

/-- Witness for the amended claim C1 at a digit-prefixed prose reply, a case
the decoder rejects as extra data rather than at the first character. -/
theorem c1_amended_witness :
    skipWs "1. \x7b\"a\": 1\x7d".data = '1' :: ". \x7b\"a\": 1\x7d".data
    ∧ ('1' : Char) ≠ '\x7b'
    ∧ (process_llm_response "1. \x7b\"a\": 1\x7d" initialState).1.current_llm_question_data
        = some (fallbackQuestion "1. \x7b\"a\": 1\x7d") :=
  ⟨rfl, by decide,
    (c1_amended_prose_falls_back.1 initialState "1. \x7b\"a\": 1\x7d" '1'
      (". \x7b\"a\": 1\x7d".data) rfl (by decide)).1⟩

/-- Raw reply decoding to an object that has the input-type field but lacks
the question-text field. -/
def c2_raw : String := "\x7b\"input_type\": \"text\"\x7d"

/-- Claim C2 fails on the code at `c2_raw`: the decoded object lacks the
question-text field, yet the code does not fall back to a free-text question
carrying the raw reply; the guard at line 176 only tests the input-type
field, so line 185 raises an uncaught KeyError, no transcript entry is
appended, and the half-built structured question is left installed. -/
theorem c2_missing_question_text_raises :
    (process_llm_response c2_raw initialState).2 = true
    ∧ (process_llm_response c2_raw initialState).1.messages = []
    ∧ (process_llm_response c2_raw initialState).1.current_llm_question_data
        = some (Json.obj [("input_type", Json.str "text")])
    ∧ pendingQuestionText (process_llm_response c2_raw initialState).1 = none :=
  ⟨rfl, rfl, rfl, rfl⟩

/-- Raw reply decoding to a terminal-typed object without question text. -/
def c3_raw : String := "\x7b\"input_type\": \"text_display_only\"\x7d"

/-- Claim C3 fails on the code at `c3_raw`: `process_llm_response` is not
total — the KeyError of line 185 escapes it, and the phase flag mutated
before the exception persists. -/
theorem c3_exception_escapes :
    (process_llm_response c3_raw initialState).2 = true
    ∧ (process_llm_response c3_raw initialState).1.assessment_phase_complete = true :=
  ⟨rfl, rfl⟩

/-- Each selected label contributes exactly one part: the in-place
substitution keeps the length. -/
theorem response_parts_length (raw_selections : List String) (other_text : String) :
    (response_parts raw_selections other_text).length = raw_selections.length := by
  have key : ∀ (rs : List String) (acc : List String),
      (rs.foldl
        (fun acc raw_sel =>
          let original := splitFirstPart raw_sel " (e.g.,"
          let acc2 := acc ++ [original]
          if strContains (toLowerStr original) "other (please specify)" = true ∧ other_text ≠ "" then
            acc2.dropLast ++ ["Other: " ++ other_text]
          else acc2)
        acc).length = acc.length + rs.length := by
    intro rs
    induction rs with
    | nil => intro acc; simp
    | cons r t ih =>
      intro acc
      simp only [List.foldl_cons]
      rw [ih]
      split
      · simp [List.length_dropLast, List.length_append]
        omega
      · simp [List.length_append]
        omega
  simpa [response_parts] using key raw_selections []

/-- The unspecified-other marker assignment of line 254 is dead code: its
guard demands an empty parts list together with a nonempty selection list,
which `response_parts_length` rules out. -/
theorem other_unspecified_guard_false (option_values raw_selections : List String)
    (other_text : String) :
    other_unspecified_guard option_values raw_selections other_text = false := by
  unfold other_unspecified_guard
  by_cases hrs : raw_selections = []
  · subst hrs
    simp
  · have hlen : (response_parts raw_selections other_text).length = raw_selections.length :=
      response_parts_length raw_selections other_text
    have hne : response_parts raw_selections other_text ≠ [] := by
      intro hc
      apply hrs
      rw [hc] at hlen
      exact List.length_eq_zero.mp hlen.symm
    have hadj : adjusted_parts raw_selections other_text ≠ [] := by
      unfold adjusted_parts
      split
      · simp
      · exact hne
    simp [hadj]

/-- Option values of the pain-type example question of the system prompt. -/
def pain_option_values : List String := ["Aching", "Throbbing", "Other (please specify)"]

/-- Formatted label of the other-option as rendered by the form (line 220). -/
def other_formatted_label : String :=
  "Other (please specify) (e.g., If none of these quite fit.)"

/-- Claim C5 fails on the code: selecting the other-option without
accompanying free text yields the literal label in the transcript, never the
explicit unspecified marker of line 255 — that assignment is dead code
(`other_unspecified_guard` is constantly false, since its guard requires an
empty parts list together with a nonempty selection).  Substitution of
accompanying free text and delimiter joining behave as claimed, and the two
transcript entries remain distinct. -/
theorem c5_other_option_evaluation :
    (∀ option_values raw_selections other_text,
        other_unspecified_guard option_values raw_selections other_text = false)
    ∧ build_user_response pain_option_values [other_formatted_label] ""
        = "Other (please specify)"
    ∧ build_user_response pain_option_values [other_formatted_label] "burning feet"
        = "Other: burning feet"
    ∧ build_user_response pain_option_values
        ["Aching (e.g., like a dull, constant muscle soreness)", other_formatted_label]
        "burning feet"
        = "Aching; Other: burning feet"
    ∧ "Other (please specify)" ≠ other_unspecified_marker
    ∧ "Other (please specify)" ≠ ("Other: " ++ "burning feet") := by
  refine ⟨other_unspecified_guard_false, rfl, rfl, rfl, ?_, ?_⟩ <;> decide

/-- Interpreting a reply never touches the summary flag. -/
theorem process_summary_eq (t : String) (s : ScreenerState) :
    (process_llm_response t s).1.summary_generated = s.summary_generated := by
  cases hj : json_loads t with
  | none => simp [process_llm_response, hj, processFallback]
  | some v =>
    cases v with
    | obj fields =>
      by_cases hk : hasKey fields "input_type" = true
      · by_cases htdo : optPyEqStr (dictGet fields "input_type") "text_display_only" = true
        · cases hq : dictGet fields "question_text" <;>
            simp [process_llm_response, hj, hk, htdo, hq]
        · cases hq : dictGet fields "question_text" <;>
            simp [process_llm_response, hj, hk, htdo, hq]
      · simp [process_llm_response, hj, hk, processFallback]
    | null => simp [process_llm_response, hj, processFallback]
    | bool b => simp [process_llm_response, hj, processFallback]
    | num raw => simp [process_llm_response, hj, processFallback]
    | str s2 => simp [process_llm_response, hj, processFallback]
    | arr l => simp [process_llm_response, hj, processFallback]

/-- Interpreting a reply either leaves the phase flag alone or raises it. -/
theorem process_phase_mono (t : String) (s : ScreenerState) :
    (process_llm_response t s).1.assessment_phase_complete = s.assessment_phase_complete
    ∨ (process_llm_response t s).1.assessment_phase_complete = true := by
  cases hj : json_loads t with
  | none => left; simp [process_llm_response, hj, processFallback]
  | some v =>
    cases v with
    | obj fields =>
      by_cases hk : hasKey fields "input_type" = true
      · by_cases htdo : optPyEqStr (dictGet fields "input_type") "text_display_only" = true
        · right
          cases hq : dictGet fields "question_text" <;>
            simp [process_llm_response, hj, hk, htdo, hq]
        · left
          cases hq : dictGet fields "question_text" <;>
            simp [process_llm_response, hj, hk, htdo, hq]
      · left; simp [process_llm_response, hj, hk, processFallback]
    | null => left; simp [process_llm_response, hj, processFallback]
    | bool b => left; simp [process_llm_response, hj, processFallback]
    | num raw => left; simp [process_llm_response, hj, processFallback]
    | str s2 => left; simp [process_llm_response, hj, processFallback]
    | arr l => left; simp [process_llm_response, hj, processFallback]

/-- Interpreting a reply appends at most one assistant message. -/
theorem process_messages_shape (t : String) (s : ScreenerState) :
    (process_llm_response t s).1.messages = s.messages
    ∨ ∃ c, (process_llm_response t s).1.messages = s.messages ++ [⟨Role.assistant, c⟩] := by
  cases hj : json_loads t with
  | none => right; exact ⟨t, by simp [process_llm_response, hj, processFallback]⟩
  | some v =>
    cases v with
    | obj fields =>
      by_cases hk : hasKey fields "input_type" = true
      · by_cases htdo : optPyEqStr (dictGet fields "input_type") "text_display_only" = true
        · cases hq : dictGet fields "question_text" with
          | none => left; simp [process_llm_response, hj, hk, htdo, hq]
          | some qt =>
            right
            exact ⟨pyStr qt, by simp [process_llm_response, hj, hk, htdo, hq]⟩
        · cases hq : dictGet fields "question_text" with
          | none => left; simp [process_llm_response, hj, hk, htdo, hq]
          | some qt =>
            right
            exact ⟨pyStr qt, by simp [process_llm_response, hj, hk, htdo, hq]⟩
      · right; exact ⟨t, by simp [process_llm_response, hj, hk, processFallback]⟩
    | null => right; exact ⟨t, by simp [process_llm_response, hj, processFallback]⟩
    | bool b => right; exact ⟨t, by simp [process_llm_response, hj, processFallback]⟩
    | num raw => right; exact ⟨t, by simp [process_llm_response, hj, processFallback]⟩
    | str s2 => right; exact ⟨t, by simp [process_llm_response, hj, processFallback]⟩
    | arr l => right; exact ⟨t, by simp [process_llm_response, hj, processFallback]⟩

/-- A pending question carrying the terminal input type is only ever
installed together with the completed-phase flag. -/
theorem process_terminal_sets_flag (t : String) (s : ScreenerState)
    (fs : List (String × Json))
    (h1 : (process_llm_response t s).1.current_llm_question_data = some (Json.obj fs))
    (h2 : dictGet fs "input_type" = some (Json.str "text_display_only")) :
    (process_llm_response t s).1.assessment_phase_complete = true := by
  cases hj : json_loads t with
  | none =>
    rw [process_of_loads_none t s hj] at h1
    simp [processFallback, fallbackQuestion] at h1
    rw [← h1] at h2
    simp [dictGet] at h2
  | some v =>
    cases v with
    | obj fields =>
      by_cases hk : hasKey fields "input_type" = true
      · have hfs : fields = fs := by
          by_cases htdo : optPyEqStr (dictGet fields "input_type") "text_display_only" = true
          · cases hq : dictGet fields "question_text" <;>
              (simp [process_llm_response, hj, hk, htdo, hq] at h1; exact h1)
          · cases hq : dictGet fields "question_text" <;>
              (simp [process_llm_response, hj, hk, htdo, hq] at h1; exact h1)
        subst hfs
        have htdo : optPyEqStr (dictGet fields "input_type") "text_display_only" = true := by
          rw [h2]
          simp [optPyEqStr, pyEqStr]
        cases hq : dictGet fields "question_text" <;>
          simp [process_llm_response, hj, hk, htdo, hq]
      · exfalso
        simp [process_llm_response, hj, hk, processFallback, fallbackQuestion] at h1
        rw [← h1] at h2
        simp [dictGet] at h2
    | null =>
      exfalso
      simp [process_llm_response, hj, processFallback, fallbackQuestion] at h1
      rw [← h1] at h2
      simp [dictGet] at h2
    | bool b =>
      exfalso
      simp [process_llm_response, hj, processFallback, fallbackQuestion] at h1
      rw [← h1] at h2
      simp [dictGet] at h2
    | num raw =>
      exfalso
      simp [process_llm_response, hj, processFallback, fallbackQuestion] at h1
      rw [← h1] at h2
      simp [dictGet] at h2
    | str s2 =>
      exfalso
      simp [process_llm_response, hj, processFallback, fallbackQuestion] at h1
      rw [← h1] at h2
      simp [dictGet] at h2
    | arr l =>
      exfalso
      simp [process_llm_response, hj, processFallback, fallbackQuestion] at h1
      rw [← h1] at h2
      simp [dictGet] at h2

/-- Rank comparison from the two flag conditions. -/
theorem phaseRank_le (s s' : ScreenerState)
    (h1 : s.summary_generated = true → s'.summary_generated = true)
    (h2 : s.assessment_phase_complete = true →
        s'.assessment_phase_complete = true ∨ s'.summary_generated = true) :
    phaseRank s ≤ phaseRank s' := by
  unfold phaseRank
  cases hsg : s.summary_generated <;> cases hac : s.assessment_phase_complete <;>
    cases hsg' : s'.summary_generated <;> cases hac' : s'.assessment_phase_complete <;>
    simp_all

/-- Every non-reset step raises flags only: the summary flag never drops and
the phase flag never drops without the summary flag being set. -/
theorem step_flag_mono (e : UiEvent) (s : ScreenerState)
    (hne : e ≠ UiEvent.resetSession) :
    (s.summary_generated = true → (step e s).state.summary_generated = true)
    ∧ (s.assessment_phase_complete = true →
        (step e s).state.assessment_phase_complete = true
        ∨ (step e s).state.summary_generated = true) := by
  cases e with
  | initGreeting r =>
    by_cases hm : s.messages = []
    · cases r with
      | some t =>
        have hst : (step (UiEvent.initGreeting (some t)) s).state
            = (process_llm_response t s).1 := by
          simp [step, hm, handle_initial_greeting]
        rw [hst]
        refine ⟨?_, ?_⟩
        · intro h
          rw [process_summary_eq]
          exact h
        · intro h
          rcases process_phase_mono t s with hp | hp
          · exact Or.inl (hp.trans h)
          · exact Or.inl hp
      | none =>
        have hst : (step (UiEvent.initGreeting none) s).state
            = { s with
                messages := s.messages ++ [⟨Role.assistant, initial_fallback_text⟩]
                current_llm_question_data := some (fallbackQuestion initial_fallback_text) } := by
          simp [step, hm, handle_initial_greeting]
        rw [hst]
        exact ⟨id, fun h => Or.inl h⟩
    · have hst : step (UiEvent.initGreeting r) s = noopResult s := by
        simp [step, hm]
      rw [hst]
      exact ⟨id, fun h => Or.inl h⟩
  | optionsSubmit sel ot r =>
    by_cases hg : s.assessment_phase_complete = false ∧ s.summary_generated = false
    · refine ⟨?_, ?_⟩
      · intro h
        rw [hg.2] at h
        simp at h
      · intro h
        rw [hg.1] at h
        simp at h
    · have hst : step (UiEvent.optionsSubmit sel ot r) s = noopResult s := by
        simp only [step, if_neg hg]
      rw [hst]
      exact ⟨id, fun h => Or.inl h⟩
  | textSubmit p r =>
    by_cases hg : s.assessment_phase_complete = false ∧ s.summary_generated = false
    · refine ⟨?_, ?_⟩
      · intro h
        rw [hg.2] at h
        simp at h
      · intro h
        rw [hg.1] at h
        simp at h
    · have hst : step (UiEvent.textSubmit p r) s = noopResult s := by
        simp only [step, if_neg hg]
      rw [hst]
      exact ⟨id, fun h => Or.inl h⟩
  | generateSummary r =>
    by_cases hg : s.assessment_phase_complete = true ∧ s.summary_generated = false
    · cases r with
      | some t =>
        have hst : (step (UiEvent.generateSummary (some t)) s).state
            = { s with summary_text := t, summary_generated := true } := by
          simp [step, hg, handle_generate_summary]
        rw [hst]
        exact ⟨fun _ => rfl, fun h => Or.inl h⟩
      | none =>
        have hst : (step (UiEvent.generateSummary none) s).state = s := by
          simp [step, hg, handle_generate_summary]
        rw [hst]
        exact ⟨id, fun h => Or.inl h⟩
    · have hst : step (UiEvent.generateSummary r) s = noopResult s := by
        simp only [step, if_neg hg]
      rw [hst]
      exact ⟨id, fun h => Or.inl h⟩
  | resetSession => exact absurd rfl hne

/-- Single-step phase monotonicity for non-reset events. -/
theorem step_phase_mono (e : UiEvent) (s : ScreenerState)
    (hne : e ≠ UiEvent.resetSession) :
    phaseRank s ≤ phaseRank (step e s).state :=
  phaseRank_le s _ (step_flag_mono e s hne).1 (step_flag_mono e s hne).2

/-- Unfolding of `run` over a first event. -/
theorem run_cons (e : UiEvent) (t : List UiEvent) (s : ScreenerState) :
    run (e :: t) s = run t (step e s).state := rfl

/-- Claim C6: the session phase is monotonic — across any single non-reset
step and any sequence of non-reset steps the rank in the order gathering (0)
< assessment-complete (1) < summary-generated (2) never decreases, and only
the explicit session reset returns the state (hence the phase) to the
initial gathering state. -/
theorem c6_phase_monotonic :
    (∀ (e : UiEvent) (s : ScreenerState), e ≠ UiEvent.resetSession →
        phaseRank s ≤ phaseRank (step e s).state)
    ∧ (∀ (events : List UiEvent) (s : ScreenerState),
        (∀ e ∈ events, e ≠ UiEvent.resetSession) →
        phaseRank s ≤ phaseRank (run events s))
    ∧ (∀ s : ScreenerState, (step UiEvent.resetSession s).state = initialState)
    ∧ phaseRank initialState = 0 := by
  refine ⟨step_phase_mono, ?_, fun s => rfl, rfl⟩
  intro events
  induction events with
  | nil => intro s _; exact Nat.le_refl _
  | cons e t ih =>
    intro s h
    have h1 := step_phase_mono e s (h e (by simp))
    have h2 := ih (step e s).state (fun e2 he2 => h e2 (by simp [he2]))
    rw [run_cons]
    exact Nat.le_trans h1 h2

/-- Witness for claim C6 at a concrete event and state. -/
theorem c6_phase_monotonic_witness :
    (UiEvent.textSubmit "hello" none ≠ UiEvent.resetSession)
    ∧ phaseRank initialState
        ≤ phaseRank (step (UiEvent.textSubmit "hello" none) initialState).state :=
  ⟨by decide, c6_phase_monotonic.1 (UiEvent.textSubmit "hello" none) initialState (by decide)⟩

/-- Claim C7: a pending question of terminal kind (input type
text_display_only) is only installed together with the completed-assessment
phase, and in that phase the user-facing submission handlers issue no model
call (the summary request is the only remaining call path). -/
theorem c7_terminal_implies_complete :
    (∀ (t : String) (s : ScreenerState) (fs : List (String × Json)),
        (process_llm_response t s).1.current_llm_question_data = some (Json.obj fs) →
        dictGet fs "input_type" = some (Json.str "text_display_only") →
        (process_llm_response t s).1.assessment_phase_complete = true)
    ∧ (∀ s : ScreenerState, s.assessment_phase_complete = true →
        (∀ (p : String) (r : Option String),
            (step (UiEvent.textSubmit p r) s).request = none)
        ∧ (∀ (sel : List String) (ot : String) (r : Option String),
            (step (UiEvent.optionsSubmit sel ot r) s).request = none)) := by
  refine ⟨process_terminal_sets_flag, ?_⟩
  intro s h
  have hg : ¬(s.assessment_phase_complete = false ∧ s.summary_generated = false) := by
    intro hc
    rw [h] at hc
    simp at hc
  constructor
  · intro p r
    simp only [step, if_neg hg]
    rfl
  · intro sel ot r
    simp only [step, if_neg hg]
    rfl

/-- Terminal reply used by the witness for claim C7. -/
def c7_raw : String :=
  "\x7b\"question_text\": \"Done now.\", \"input_type\": \"text_display_only\"\x7d"

/-- Witness for claim C7 at a concrete terminal reply and a concrete
completed-phase state. -/
theorem c7_terminal_witness :
    (process_llm_response c7_raw initialState).1.current_llm_question_data
        = some (Json.obj [("question_text", Json.str "Done now."),
                          ("input_type", Json.str "text_display_only")])
    ∧ dictGet [("question_text", Json.str "Done now."),
               ("input_type", Json.str "text_display_only")] "input_type"
        = some (Json.str "text_display_only")
    ∧ (process_llm_response c7_raw initialState).1.assessment_phase_complete = true
    ∧ ({ initialState with assessment_phase_complete := true } :
        ScreenerState).assessment_phase_complete = true
    ∧ (step (UiEvent.textSubmit "more" none)
        { initialState with assessment_phase_complete := true }).request = none :=
  ⟨rfl, rfl,
    c7_terminal_implies_complete.1 c7_raw initialState
      [("question_text", Json.str "Done now."),
       ("input_type", Json.str "text_display_only")] rfl rfl,
    rfl,
    (c7_terminal_implies_complete.2 { initialState with assessment_phase_complete := true }
      rfl).1 "more" none⟩

/-- Claim C4: under the assistant-last transcript invariant of reachable
input states (odd transcript length: the session opens with one assistant
greeting and every completed exchange appends a user and an assistant entry),
a free-text submission containing the end marker (case-insensitively) forces
the transition exactly when at least two prior messages exist — equivalently,
at least three, by parity — in which case no model call is issued and the
fixed closing assistant message is appended; below the threshold the marker
is rejected and the message is sent to the model as usual. -/
theorem c4_forced_termination (s : ScreenerState) (q : Json) (prompt : String)
    (r : Option String)
    (hph : s.assessment_phase_complete = false) (hsg : s.summary_generated = false)
    (hq : s.current_llm_question_data = some q) (ht : inputTypeIs q "text" = true)
    (hodd : s.messages.length % 2 = 1) :
    (endMarkerIn prompt = true ∧ 2 ≤ s.messages.length →
        (step (UiEvent.textSubmit prompt r) s).state.assessment_phase_complete = true
        ∧ (step (UiEvent.textSubmit prompt r) s).request = none
        ∧ (step (UiEvent.textSubmit prompt r) s).state.messages
            = s.messages ++ [⟨Role.user, prompt⟩, ⟨Role.assistant, closing_message⟩])
    ∧ (endMarkerIn prompt = true ∧ s.messages.length < 2 →
        (step (UiEvent.textSubmit prompt r) s).request
            = some (systemMessage :: (s.messages ++ [⟨Role.user, prompt⟩]))) := by
  have hstep : step (UiEvent.textSubmit prompt r) s = handle_text_input prompt r s := by
    simp [step, hph, hsg, hq, ht]
  rw [hstep]
  constructor
  · rintro ⟨hm, hlen⟩
    have hcond : 3 < s.messages.length + 1 := by omega
    refine ⟨?_, ?_, ?_⟩ <;> simp [handle_text_input, hm, hcond]
  · rintro ⟨hm, hlen⟩
    have hnc : ¬ 3 < s.messages.length + 1 := by omega
    cases r with
    | some t => simp [handle_text_input, hnc]
    | none => simp [handle_text_input, hnc]

/-- Concrete reachable gathering state used by the witness for claim C4:
one greeting, one answer, one follow-up question. -/
def c4_state : ScreenerState :=
  { messages := [⟨Role.assistant, "Hello! Your age?"⟩, ⟨Role.user, "40"⟩,
                 ⟨Role.assistant, "Main concerns?"⟩]
    current_llm_question_data := some (fallbackQuestion "Main concerns?")
    assessment_phase_complete := false
    summary_generated := false
    summary_text := "" }

/-- Witness for claim C4: in the three-message state the end marker is
accepted, no call is issued, and the closing message is appended. -/
theorem c4_forced_termination_witness :
    c4_state.assessment_phase_complete = false
    ∧ c4_state.current_llm_question_data = some (fallbackQuestion "Main concerns?")
    ∧ c4_state.messages.length % 2 = 1
    ∧ endMarkerIn "end assessment" = true
    ∧ ((step (UiEvent.textSubmit "end assessment" none) c4_state).state.assessment_phase_complete
          = true
        ∧ (step (UiEvent.textSubmit "end assessment" none) c4_state).request = none
        ∧ (step (UiEvent.textSubmit "end assessment" none) c4_state).state.messages
            = c4_state.messages
              ++ [⟨Role.user, "end assessment"⟩, ⟨Role.assistant, closing_message⟩]) :=
  ⟨rfl, rfl, rfl, rfl,
    (c4_forced_termination c4_state (fallbackQuestion "Main concerns?") "end assessment"
      none rfl rfl rfl rfl rfl).1 ⟨rfl, by decide⟩⟩

/-- The text handler either issues no call (forced end) or sends exactly the
system message followed by the transcript including the new user entry. -/
theorem handle_text_input_request (p : String) (r : Option String) (s : ScreenerState) :
    (handle_text_input p r s).request = none
    ∨ (handle_text_input p r s).request
        = some (systemMessage :: (s.messages ++ [⟨Role.user, p⟩])) := by
  by_cases hcond : endMarkerIn p = true ∧ 3 < s.messages.length + 1
  · left
    simp [handle_text_input, hcond]
  · right
    cases r with
    | some t => simp [handle_text_input, hcond]
    | none => simp [handle_text_input, hcond]

/-- The options handler always sends the system message followed by the
transcript including the reconstructed user entry. -/
theorem handle_options_submit_request (vals sel : List String) (ot : String)
    (r : Option String) (s : ScreenerState) :
    (handle_options_submit vals sel ot r s).request
      = some (systemMessage
          :: (s.messages ++ [⟨Role.user, build_user_response vals sel ot⟩])) := by
  cases r with
  | some t => simp [handle_options_submit]
  | none => simp [handle_options_submit]

/-- Shape of any request issued by a text submission. -/
theorem step_text_request (s : ScreenerState) (p : String) (r : Option String)
    (req : List Message)
    (h : (step (UiEvent.textSubmit p r) s).request = some req) :
    req = systemMessage :: (s.messages ++ [⟨Role.user, p⟩]) := by
  by_cases hg : s.assessment_phase_complete = false ∧ s.summary_generated = false
  · cases hq : s.current_llm_question_data with
    | none =>
      rw [show step (UiEvent.textSubmit p r) s = noopResult s from by simp [step, hg, hq]] at h
      simp [noopResult] at h
    | some q =>
      by_cases ht : inputTypeIs q "text" = true
      · have hstep : step (UiEvent.textSubmit p r) s = handle_text_input p r s := by
          simp [step, hg, hq, ht]
        rw [hstep] at h
        rcases handle_text_input_request p r s with hr | hr
        · rw [hr] at h
          cases h
        · rw [hr] at h
          exact (Option.some.inj h).symm
      · rw [show step (UiEvent.textSubmit p r) s = noopResult s from by
            simp [step, hg, hq, ht]] at h
        simp [noopResult] at h
  · rw [show step (UiEvent.textSubmit p r) s = noopResult s from by
        simp only [step, if_neg hg]] at h
    simp [noopResult] at h

/-- Shape of any request issued by an options submission, given the rendered
option values of the pending question. -/
theorem step_options_request (s : ScreenerState) (q : Json) (vals sel : List String)
    (ot : String) (r : Option String) (req : List Message)
    (hq : s.current_llm_question_data = some q)
    (hv : extractOptionValues q = some vals)
    (h : (step (UiEvent.optionsSubmit sel ot r) s).request = some req) :
    req = systemMessage
        :: (s.messages ++ [⟨Role.user, build_user_response vals sel ot⟩]) := by
  by_cases hg : s.assessment_phase_complete = false ∧ s.summary_generated = false
  · by_cases ht : inputTypeIs q "options" = true
    · have hstep : step (UiEvent.optionsSubmit sel ot r) s
          = handle_options_submit vals sel ot r s := by
        simp [step, hg, hq, ht, hv]
      rw [hstep, handle_options_submit_request] at h
      exact (Option.some.inj h).symm
    · rw [show step (UiEvent.optionsSubmit sel ot r) s = noopResult s from by
          simp [step, hg, hq, ht]] at h
      simp [noopResult] at h
  · rw [show step (UiEvent.optionsSubmit sel ot r) s = noopResult s from by
        simp only [step, if_neg hg]] at h
    simp [noopResult] at h

/-- Shape of any request issued by an options submission, without reference
to the pending question: system message then transcript then one user entry. -/
theorem step_options_request_shape (s : ScreenerState) (sel : List String)
    (ot : String) (r : Option String) (req : List Message)
    (h : (step (UiEvent.optionsSubmit sel ot r) s).request = some req) :
    ∃ content, req = systemMessage :: (s.messages ++ [⟨Role.user, content⟩]) := by
  by_cases hg : s.assessment_phase_complete = false ∧ s.summary_generated = false
  · cases hqq : s.current_llm_question_data with
    | none =>
      rw [show step (UiEvent.optionsSubmit sel ot r) s = noopResult s from by
          simp [step, hg, hqq]] at h
      simp [noopResult] at h
    | some q =>
      by_cases ht : inputTypeIs q "options" = true
      · cases hv : extractOptionValues q with
        | none =>
          rw [show step (UiEvent.optionsSubmit sel ot r) s = noopResult s from by
              simp [step, hg, hqq, ht, hv]] at h
          simp [noopResult] at h
        | some vals =>
          exact ⟨build_user_response vals sel ot,
            step_options_request s q vals sel ot r req hqq hv h⟩
      · rw [show step (UiEvent.optionsSubmit sel ot r) s = noopResult s from by
            simp [step, hg, hqq, ht]] at h
        simp [noopResult] at h
  · rw [show step (UiEvent.optionsSubmit sel ot r) s = noopResult s from by
        simp only [step, if_neg hg]] at h
    simp [noopResult] at h

/-- The initial greeting call sends exactly the system message alone. -/
theorem step_init_request (s : ScreenerState) (r : Option String) (req : List Message)
    (h : (step (UiEvent.initGreeting r) s).request = some req) :
    req = [systemMessage] := by
  by_cases hm : s.messages = []
  · cases r with
    | some t =>
      have : (step (UiEvent.initGreeting (some t)) s).request = some [systemMessage] := by
        simp [step, hm, handle_initial_greeting]
      rw [this] at h
      exact (Option.some.inj h).symm
    | none =>
      have : (step (UiEvent.initGreeting none) s).request = some [systemMessage] := by
        simp [step, hm, handle_initial_greeting]
      rw [this] at h
      exact (Option.some.inj h).symm
  · rw [show step (UiEvent.initGreeting r) s = noopResult s from by simp [step, hm]] at h
    simp [noopResult] at h

/-- Appending splits the no-system test. -/
theorem noSystemIn_append (l1 l2 : List Message) :
    noSystemIn (l1 ++ l2) = (noSystemIn l1 && noSystemIn l2) := by
  simp [noSystemIn]

/-- Interpreting a reply appends only assistant entries. -/
theorem process_preserves_noSystem (t : String) (s : ScreenerState)
    (h : noSystemIn s.messages = true) :
    noSystemIn (process_llm_response t s).1.messages = true := by
  rcases process_messages_shape t s with hp | ⟨c, hp⟩
  · rw [hp]
    exact h
  · rw [hp, noSystemIn_append, h]
    rfl

/-- No handler ever writes a system-role entry into the stored transcript. -/
theorem step_preserves_noSystem (e : UiEvent) (s : ScreenerState)
    (h : noSystemIn s.messages = true) :
    noSystemIn (step e s).state.messages = true := by
  cases e with
  | initGreeting r =>
    by_cases hm : s.messages = []
    · cases r with
      | some t =>
        have hst : (step (UiEvent.initGreeting (some t)) s).state
            = (process_llm_response t s).1 := by
          simp [step, hm, handle_initial_greeting]
        rw [hst]
        exact process_preserves_noSystem t s h
      | none =>
        have hst : (step (UiEvent.initGreeting none) s).state.messages
            = s.messages ++ [⟨Role.assistant, initial_fallback_text⟩] := by
          simp [step, hm, handle_initial_greeting]
        rw [hst, noSystemIn_append, h]
        rfl
    · rw [show step (UiEvent.initGreeting r) s = noopResult s from by simp [step, hm]]
      exact h
  | optionsSubmit sel ot r =>
    by_cases hg : s.assessment_phase_complete = false ∧ s.summary_generated = false
    · cases hq : s.current_llm_question_data with
      | none =>
        rw [show step (UiEvent.optionsSubmit sel ot r) s = noopResult s from by
            simp [step, hg, hq]]
        exact h
      | some q =>
        by_cases ht : inputTypeIs q "options" = true
        · cases hv : extractOptionValues q with
          | none =>
            rw [show step (UiEvent.optionsSubmit sel ot r) s = noopResult s from by
                simp [step, hg, hq, ht, hv]]
            exact h
          | some vals =>
            have hstep : step (UiEvent.optionsSubmit sel ot r) s
                = handle_options_submit vals sel ot r s := by
              simp [step, hg, hq, ht, hv]
            rw [hstep]
            have huser : noSystemIn (s.messages
                ++ [⟨Role.user, build_user_response vals sel ot⟩]) = true := by
              rw [noSystemIn_append, h]
              rfl
            cases r with
            | some t =>
              have hst : (handle_options_submit vals sel ot (some t) s).state
                  = (process_llm_response t
                      { s with
                          messages := s.messages
                            ++ [⟨Role.user, build_user_response vals sel ot⟩]
                          current_llm_question_data := none }).1 := by
                simp [handle_options_submit]
              rw [hst]
              exact process_preserves_noSystem t _ huser
            | none =>
              have hst : (handle_options_submit vals sel ot none s).state.messages
                  = s.messages ++ [⟨Role.user, build_user_response vals sel ot⟩] := by
                simp [handle_options_submit]
              rw [hst]
              exact huser
        · rw [show step (UiEvent.optionsSubmit sel ot r) s = noopResult s from by
              simp [step, hg, hq, ht]]
          exact h
    · rw [show step (UiEvent.optionsSubmit sel ot r) s = noopResult s from by
          simp only [step, if_neg hg]]
      exact h
  | textSubmit p r =>
    by_cases hg : s.assessment_phase_complete = false ∧ s.summary_generated = false
    · cases hq : s.current_llm_question_data with
      | none =>
        rw [show step (UiEvent.textSubmit p r) s = noopResult s from by simp [step, hg, hq]]
        exact h
      | some q =>
        by_cases ht : inputTypeIs q "text" = true
        · have hstep : step (UiEvent.textSubmit p r) s = handle_text_input p r s := by
            simp [step, hg, hq, ht]
          rw [hstep]
          have huser : noSystemIn (s.messages ++ [⟨Role.user, p⟩]) = true := by
            rw [noSystemIn_append, h]
            rfl
          by_cases hcond : endMarkerIn p = true ∧ 3 < s.messages.length + 1
          · have hst : (handle_text_input p r s).state.messages
                = (s.messages ++ [⟨Role.user, p⟩]) ++ [⟨Role.assistant, closing_message⟩] := by
              simp [handle_text_input, hcond]
            rw [hst, noSystemIn_append, huser]
            rfl
          · cases r with
            | some t =>
              have hst : (handle_text_input p (some t) s).state
                  = (process_llm_response t
                      { s with
                          messages := s.messages ++ [⟨Role.user, p⟩]
                          current_llm_question_data := none }).1 := by
                simp [handle_text_input, hcond]
              rw [hst]
              exact process_preserves_noSystem t _ huser
            | none =>
              have hst : (handle_text_input p none s).state.messages
                  = s.messages ++ [⟨Role.user, p⟩] := by
                simp [handle_text_input, hcond]
              rw [hst]
              exact huser
        · rw [show step (UiEvent.textSubmit p r) s = noopResult s from by
              simp [step, hg, hq, ht]]
          exact h
    · rw [show step (UiEvent.textSubmit p r) s = noopResult s from by
          simp only [step, if_neg hg]]
      exact h
  | generateSummary r =>
    by_cases hg : s.assessment_phase_complete = true ∧ s.summary_generated = false
    · cases r with
      | some t =>
        have hst : (step (UiEvent.generateSummary (some t)) s).state.messages
            = s.messages := by
          simp [step, hg, handle_generate_summary]
        rw [hst]
        exact h
      | none =>
        have hst : (step (UiEvent.generateSummary none) s).state.messages = s.messages := by
          simp [step, hg, handle_generate_summary]
        rw [hst]
        exact h
    · rw [show step (UiEvent.generateSummary r) s = noopResult s from by
          simp only [step, if_neg hg]]
      exact h
  | resetSession => rfl

/-- A transcript without system entries contributes none to the count. -/
theorem countSystem_of_noSystem (l : List Message) (h : noSystemIn l = true) :
    countSystem l = 0 := by
  induction l with
  | nil => rfl
  | cons m t ih =>
    rw [noSystemIn] at h
    simp only [List.all_cons, Bool.and_eq_true] at h
    unfold countSystem
    cases hm : m.role with
    | system =>
      rw [hm] at h
      simp at h
    | user =>
      simp only [List.filter_cons, hm]
      exact ih h.2
    | assistant =>
      simp only [List.filter_cons, hm]
      exact ih h.2

/-- Prepending the system message to a system-free transcript yields exactly
one system entry. -/
theorem countSystem_cons_system (l : List Message) (h : noSystemIn l = true) :
    countSystem (systemMessage :: l) = 1 := by
  have h0 : countSystem l = 0 := countSystem_of_noSystem l h
  unfold countSystem at h0 ⊢
  simp only [List.filter_cons, systemMessage]
  simp only [List.length_cons, if_pos trivial]
  omega

/-- Every request issued from a system-free stored transcript carries exactly
one system entry. -/
theorem step_request_one_system (e : UiEvent) (s : ScreenerState) (req : List Message)
    (h : noSystemIn s.messages = true)
    (hr : (step e s).request = some req) : countSystem req = 1 := by
  cases e with
  | initGreeting r =>
    rw [step_init_request s r req hr]
    rfl
  | textSubmit p r =>
    rw [step_text_request s p r req hr]
    apply countSystem_cons_system
    rw [noSystemIn_append, h]
    rfl
  | optionsSubmit sel ot r =>
    obtain ⟨c, hc⟩ := step_options_request_shape s sel ot r req hr
    rw [hc]
    apply countSystem_cons_system
    rw [noSystemIn_append, h]
    rfl
  | generateSummary r =>
    by_cases hg : s.assessment_phase_complete = true ∧ s.summary_generated = false
    · have hreq : (step (UiEvent.generateSummary r) s).request = some (summaryRequest s) := by
        cases r with
        | some t => simp [step, hg, handle_generate_summary]
        | none => simp [step, hg, handle_generate_summary]
      rw [hreq] at hr
      rw [← Option.some.inj hr]
      rfl
    · rw [show step (UiEvent.generateSummary r) s = noopResult s from by
          simp only [step, if_neg hg]] at hr
      simp [noopResult] at hr
  | resetSession => cases hr

/-- Claim C8: every gathering-phase request is the system message followed by
the full transcript so far (including the just-appended user entry; the
initial greeting request carries the then-empty transcript), the stored
transcript never receives a system entry, and any issued request contains
exactly one system-role message. -/
theorem c8_request_construction :
    (∀ (s : ScreenerState) (p : String) (r : Option String) (req : List Message),
        (step (UiEvent.textSubmit p r) s).request = some req →
        req = systemMessage :: (s.messages ++ [⟨Role.user, p⟩]))
    ∧ (∀ (s : ScreenerState) (q : Json) (vals sel : List String) (ot : String)
        (r : Option String) (req : List Message),
        s.current_llm_question_data = some q →
        extractOptionValues q = some vals →
        (step (UiEvent.optionsSubmit sel ot r) s).request = some req →
        req = systemMessage
            :: (s.messages ++ [⟨Role.user, build_user_response vals sel ot⟩]))
    ∧ (∀ (s : ScreenerState) (r : Option String) (req : List Message),
        (step (UiEvent.initGreeting r) s).request = some req → req = [systemMessage])
    ∧ (∀ (e : UiEvent) (s : ScreenerState), noSystemIn s.messages = true →
        noSystemIn (step e s).state.messages = true)
    ∧ (∀ (e : UiEvent) (s : ScreenerState) (req : List Message),
        noSystemIn s.messages = true → (step e s).request = some req →
        countSystem req = 1) :=
  ⟨step_text_request, step_options_request, step_init_request,
    step_preserves_noSystem, step_request_one_system⟩

/-- Witness for claim C8 at a concrete text submission from a concrete
gathering state. -/
theorem c8_request_construction_witness :
    (step (UiEvent.textSubmit "It hurts." none) c4_state).request
        = some (systemMessage :: (c4_state.messages ++ [⟨Role.user, "It hurts."⟩]))
    ∧ noSystemIn c4_state.messages = true
    ∧ countSystem (systemMessage :: (c4_state.messages ++ [⟨Role.user, "It hurts."⟩])) = 1 :=
  ⟨rfl, rfl,
    c8_request_construction.2.2.2.2 (UiEvent.textSubmit "It hurts." none) c4_state
      (systemMessage :: (c4_state.messages ++ [(⟨Role.user, "It hurts."⟩ : Message)]))
      rfl (by rfl)⟩

/-- Claim C9: a failed upstream call advances nothing — on the text path the
submitted user message stays appended to the transcript, the pending question
stays cleared, both phase flags are untouched and no exception escapes; a
failed summary call leaves the whole state unchanged, so the summary can be
retried without re-answering. -/
theorem c9_failure_atomicity :
    (∀ (s : ScreenerState) (q : Json) (p : String),
        s.assessment_phase_complete = false → s.summary_generated = false →
        s.current_llm_question_data = some q → inputTypeIs q "text" = true →
        ¬(endMarkerIn p = true ∧ 3 < s.messages.length + 1) →
        (step (UiEvent.textSubmit p none) s).state.messages
            = s.messages ++ [⟨Role.user, p⟩]
        ∧ (step (UiEvent.textSubmit p none) s).state.current_llm_question_data = none
        ∧ (step (UiEvent.textSubmit p none) s).state.assessment_phase_complete
            = s.assessment_phase_complete
        ∧ (step (UiEvent.textSubmit p none) s).state.summary_generated
            = s.summary_generated
        ∧ (step (UiEvent.textSubmit p none) s).raised = false)
    ∧ (∀ s : ScreenerState, s.assessment_phase_complete = true →
        s.summary_generated = false →
        (step (UiEvent.generateSummary none) s).state = s
        ∧ (step (UiEvent.generateSummary none) s).raised = false) := by
  constructor
  · intro s q p hph hsg hq ht hcond
    have hstep : step (UiEvent.textSubmit p none) s = handle_text_input p none s := by
      simp [step, hph, hsg, hq, ht]
    rw [hstep]
    refine ⟨?_, ?_, ?_, ?_, ?_⟩ <;> simp [handle_text_input, hcond]
  · intro s hph hsg
    have hg : s.assessment_phase_complete = true ∧ s.summary_generated = false :=
      ⟨hph, hsg⟩
    constructor
    · simp [step, hg, handle_generate_summary]
    · simp [step, hg, handle_generate_summary]

/-- Witness for claim C9 at a concrete failed text call and a concrete failed
summary call. -/
theorem c9_failure_atomicity_witness :
    c4_state.assessment_phase_complete = false
    ∧ ¬(endMarkerIn "It hurts." = true ∧ 3 < c4_state.messages.length + 1)
    ∧ ((step (UiEvent.textSubmit "It hurts." none) c4_state).state.messages
          = c4_state.messages ++ [⟨Role.user, "It hurts."⟩]
        ∧ (step (UiEvent.textSubmit "It hurts." none) c4_state).state.current_llm_question_data
          = none
        ∧ (step (UiEvent.textSubmit "It hurts." none) c4_state).state.assessment_phase_complete
          = c4_state.assessment_phase_complete
        ∧ (step (UiEvent.textSubmit "It hurts." none) c4_state).state.summary_generated
          = c4_state.summary_generated
        ∧ (step (UiEvent.textSubmit "It hurts." none) c4_state).raised = false)
    ∧ (step (UiEvent.generateSummary none)
        { initialState with assessment_phase_complete := true }).state
        = { initialState with assessment_phase_complete := true } :=
  ⟨rfl, by decide,
    c9_failure_atomicity.1 c4_state (fallbackQuestion "Main concerns?") "It hurts."
      rfl rfl rfl rfl (by decide),
    (c9_failure_atomicity.2 { initialState with assessment_phase_complete := true }
      rfl rfl).1⟩

/-- Claim C10: when the very first upstream call fails, the controller
installs the fixed fallback greeting asking for the age as both the sole
transcript entry and the free-text pending question, so the session starts
with a nonempty transcript and an active free-text input affordance. -/
theorem c10_init_fallback (s : ScreenerState) (hm : s.messages = []) :
    (step (UiEvent.initGreeting none) s).state.messages
        = [⟨Role.assistant, initial_fallback_text⟩]
    ∧ (step (UiEvent.initGreeting none) s).state.current_llm_question_data
        = some (fallbackQuestion initial_fallback_text)
    ∧ inputTypeIs (fallbackQuestion initial_fallback_text) "text" = true
    ∧ (step (UiEvent.initGreeting none) s).state.messages ≠ []
    ∧ (step (UiEvent.initGreeting none) s).request = some [systemMessage] := by
  have hstep : step (UiEvent.initGreeting none) s = handle_initial_greeting none s := by
    simp [step, hm]
  rw [hstep]
  refine ⟨?_, ?_, rfl, ?_, ?_⟩ <;> simp [handle_initial_greeting, hm]

/-- Witness for claim C10 at the freshly initialized session state. -/
theorem c10_init_fallback_witness :
    initialState.messages = []
    ∧ (step (UiEvent.initGreeting none) initialState).state.messages
        = [⟨Role.assistant, initial_fallback_text⟩] :=
  ⟨rfl, (c10_init_fallback initialState rfl).1⟩
